import Mathlib

/-!
Verification of the `DataQualityChecker` rule library
(`scripts/quality_check.py`) against its specification.

The embedding below translates the checker's rule functions into Lean.
Tables are ordered column-name lists plus row lists of cells; a cell is a
null (pandas `NaN`), a rational number, or a string.  Each rule returns an
`Except String CheckResult`: the `Except` layer models Python exceptions
escaping the rule (pandas operations that cannot raise are embedded as
total functions; the ones that can — elementwise comparison against a
string cell, `pd.to_datetime` on an unparseable value — return `.error`).
A `CheckResult` carries the post-state of the table (Python passes the
dataframe by reference and the freshness check assigns into it) together
with the findings and pass records the rule appends to the session ledger.

NaN semantics used by the source and mirrored here:
* `Series / 0` yields NaN/inf (a value, not an exception) and `NaN > k`
  is `False`; the only place this is reachable is the outlier percentage
  on an empty table, where the count is 0 and the comparison is `False`,
  so plain `ℚ` division (with `x / 0 = 0`) produces the same branch.
* `Series.quantile` drops nulls; an all-null selection gives NaN bounds,
  under which every elementwise comparison is `False` — modelled by an
  `Option ℚ` quantile whose `none` case counts no outliers.
* comparisons of a null cell with a number are `False`.
* `pd.to_datetime` maps nulls to `NaT` (not an error); `Series.max`
  skips `NaT`; `now - NaT` has a `days` field that is not `> k` for any
  `k`, hence falls into the pass branch.
Dates are modelled at day granularity as integers, and `datetime.now()`
is passed in explicitly as `now`.
-/

inductive Cell where
  | null : Cell
  | num : ℚ → Cell
  | str : String → Cell
deriving DecidableEq

structure Table where
  cols : List String
  rows : List (List Cell)
deriving DecidableEq

/-- `c in df.columns` -/
def Table.hasCol (t : Table) (c : String) : Bool := t.cols.contains c

/-- Position of a column name (first occurrence, as in a dataframe). -/
def Table.colIdx (t : Table) (c : String) : Option Nat := t.cols.findIdx? (· == c)

/-- `df[c]`: the column as a list of cells, one per row. -/
def Table.getCol (t : Table) (c : String) : List Cell :=
  match t.colIdx c with
  | some i => t.rows.map (fun r => r.getD i Cell.null)
  | none => []

/-- `df[c] = vals`: replace column `c` (only invoked when `c` is present). -/
def Table.setCol (t : Table) (c : String) (vals : List Cell) : Table :=
  match t.colIdx c with
  | some i => ⟨t.cols, (t.rows.zip vals).map (fun rv => rv.1.set i rv.2)⟩
  | none => t

inductive Severity where
  | HIGH | MEDIUM | LOW
deriving DecidableEq

/-- A data-quality issue as appended by `add_issue`.  The human-readable
message and the wall-clock timestamp are presentation-only and omitted;
the structured `details` payload is flattened into optional fields. -/
structure Finding where
  severity : Severity
  category : String
  column : Option String := none
  count : Nat := 0
  percentage : Option ℚ := none
  bounds : Option (ℚ × ℚ) := none
  latestDate : Option Int := none
  ageDays : Option Int := none
deriving DecidableEq

/-- Post-state of one rule invocation: the (possibly mutated) dataframe and
the findings / passed-check strings appended to the session ledger. -/
structure CheckResult where
  table : Table
  findings : List Finding
  passes : List String
deriving DecidableEq

/-- `df[c].isnull().sum()` -/
def nullCount (col : List Cell) : Nat := col.countP (fun x => x == Cell.null)

/-- Severity bucketing of `check_missing_values` (lines 44-55). -/
def missingSeverity (pct : ℚ) : Severity :=
  if 10 < pct then .HIGH else if 5 < pct then .MEDIUM else .LOW

/-- `missing_pct[col]` for one column. -/
def missingPct (t : Table) (c : String) : ℚ :=
  (nullCount (t.getCol c) : ℚ) / (t.rows.length : ℚ) * 100

def missingFinding (t : Table) (c : String) : Finding :=
  { severity := missingSeverity (missingPct t c), category := "Missing Data",
    column := some c, count := nullCount (t.getCol c),
    percentage := some (missingPct t c) }

/-- `missing[missing > 0]`: the columns with a positive null count, in
column order. -/
def criticalMissing (t : Table) : List String :=
  t.cols.filter (fun c => 0 < nullCount (t.getCol c))

/-- `check_missing_values` (lines 32-58). -/
def check_missing_values (t : Table) (name : String) : Except String CheckResult :=
  let critical := criticalMissing t
  if critical.isEmpty then
    .ok ⟨t, [], ["No missing values in " ++ name]⟩
  else
    .ok ⟨t, critical.map (missingFinding t), []⟩

/-- Projection of a row onto a key subset, as used by
`df.duplicated(subset=...)`. -/
def projRow (t : Table) (cols : List String) (r : List Cell) : List Cell :=
  cols.map (fun c =>
    match t.colIdx c with
    | some i => r.getD i Cell.null
    | none => Cell.null)

/-- The comparison keys of `df.duplicated(subset)`.  Python's `if subset:`
treats `None` and `[]` alike (full-row comparison); pandas raises a
`KeyError` when a named subset column is absent. -/
def dupKeys (t : Table) (subset : Option (List String)) : Except String (List (List Cell)) :=
  match subset with
  | none => .ok t.rows
  | some s =>
    if s.isEmpty then .ok t.rows
    else if s.all t.hasCol then .ok (t.rows.map (projRow t s))
    else .error "KeyError: subset column not in table"

/-- `df.duplicated(...).sum()` with the default `keep=first`: scan the keys
accumulating the already-seen ones, counting a row iff its key was seen. -/
def dupCount : List (List Cell) → List (List Cell) → Nat
  | _, [] => 0
  | seen, r :: rs => (if r ∈ seen then 1 else 0) + dupCount (r :: seen) rs

/-- `check_duplicates` (lines 60-76). -/
def check_duplicates (t : Table) (name : String) (subset : Option (List String)) :
    Except String CheckResult :=
  match dupKeys t subset with
  | .error e => .error e
  | .ok keys =>
    let d := dupCount [] keys
    if 0 < d then
      .ok ⟨t, [{ severity := .MEDIUM, category := "Duplicates", count := d }], []⟩
    else
      .ok ⟨t, [], ["No duplicates in " ++ name]⟩

/-- One elementwise step of `(df[col] < min_val) | (df[col] > max_val)`:
null compares `False`; a string cell raises `TypeError` (the range check
has no dtype guard). -/
def cellOutOfRange (c : Cell) (lo hi : ℚ) : Except String Bool :=
  match c with
  | Cell.null => .ok false
  | Cell.num x => .ok (decide (x < lo) || decide (hi < x))
  | Cell.str _ => .error "TypeError: comparison of str and number"

/-- `((df[col] < min_val) | (df[col] > max_val)).sum()` -/
def countOutOfRange : List Cell → ℚ → ℚ → Except String Nat
  | [], _, _ => .ok 0
  | c :: cs, lo, hi =>
    match cellOutOfRange c lo hi with
    | .error e => .error e
    | .ok b =>
      match countOutOfRange cs lo hi with
      | .error e => .error e
      | .ok rest => .ok ((if b then 1 else 0) + rest)

/-- Body of the `for col, (min_val, max_val) in range_checks.items()` loop
for one column (lines 82-93). -/
def rangeColResult (t : Table) (name col : String) (lo hi : ℚ) :
    Except String (List Finding × List String) :=
  if t.hasCol col then
    match countOutOfRange (t.getCol col) lo hi with
    | .error e => .error e
    | .ok cnt =>
      if 0 < cnt then
        .ok ([{ severity := .MEDIUM, category := "Range Validation", column := some col,
                count := cnt, bounds := some (lo, hi) }], [])
      else .ok ([], [name ++ "." ++ col ++ " range check"])
  else .ok ([], [])

def rangeResults (t : Table) (name : String) :
    List (String × ℚ × ℚ) → Except String (List Finding × List String)
  | [] => .ok ([], [])
  | (col, lo, hi) :: rest =>
    match rangeColResult t name col lo hi with
    | .error e => .error e
    | .ok r =>
      match rangeResults t name rest with
      | .error e => .error e
      | .ok rs => .ok (r.1 ++ rs.1, r.2 ++ rs.2)

/-- `check_data_ranges` (lines 78-93); the ranges mapping is the
insertion-ordered dict, embedded as an association list. -/
def check_data_ranges (t : Table) (name : String) (rc : List (String × ℚ × ℚ)) :
    Except String CheckResult :=
  match rangeResults t name rc with
  | .error e => .error e
  | .ok r => .ok ⟨t, r.1, r.2⟩

/-- Decimal reading of a date string, digit by digit; `none` on the first
non-digit character. -/
def parseDateString : List Char → Nat → Option Nat
  | [], acc => some acc
  | c :: cs, acc => if c.isDigit then parseDateString cs (10 * acc + (c.toNat - 48)) else none

/-- One value under `pd.to_datetime`: null becomes `NaT` (`.ok none`),
numbers coerce, and a string either parses as a date or raises — dates are
day numbers, and the parseable strings are the decimal day-number
literals. -/
def parseDateCell : Cell → Except String (Option Int)
  | Cell.null => .ok none
  | Cell.num q => .ok (some ⌊q⌋)
  | Cell.str s =>
    if s.data.isEmpty then .error ("Error parsing date value " ++ s)
    else
      match parseDateString s.data 0 with
      | some n => .ok (some (n : Int))
      | none => .error ("Error parsing date value " ++ s)

/-- `pd.to_datetime(df[date_column])`: elementwise coercion, raising iff
some value is unparseable. -/
def coerceDates : List Cell → Except String (List (Option Int))
  | [] => .ok []
  | c :: cs =>
    match parseDateCell c with
    | .error e => .error e
    | .ok d =>
      match coerceDates cs with
      | .error e => .error e
      | .ok ds => .ok (d :: ds)

/-- A coerced date written back into the dataframe. -/
def dateCell : Option Int → Cell
  | none => Cell.null
  | some d => Cell.num (d : ℚ)

/-- `Series.max` over a datetime column, skipping `NaT`. -/
def listMaxO : List (Option Int) → Option Int
  | [] => none
  | none :: rest => listMaxO rest
  | some x :: rest =>
    match listMaxO rest with
    | none => some x
    | some y => some (max x y)

/-- `check_data_freshness` (lines 95-116).  `now` is `datetime.now()` at
day granularity.  The `try` body first assigns the coerced column into the
dataframe, then compares the age of the newest date; a coercion failure is
caught and recorded as a MEDIUM "Date Parsing" finding (with `details=None`
in the source, so no structured fields).  An all-`NaT` column gives
`age = NaN`, whose `> max_age_days` comparison is `False` (pass branch). -/
def check_data_freshness (t : Table) (name dateCol : String) (maxAgeDays now : Int) :
    Except String CheckResult :=
  if t.hasCol dateCol then
    match coerceDates (t.getCol dateCol) with
    | .error _ =>
      .ok ⟨t, [{ severity := .MEDIUM, category := "Date Parsing" }], []⟩
    | .ok parsed =>
      match listMaxO parsed with
      | none => .ok ⟨t.setCol dateCol (parsed.map dateCell), [], [name ++ " freshness check"]⟩
      | some latest =>
        if maxAgeDays < now - latest then
          .ok ⟨t.setCol dateCol (parsed.map dateCell),
               [{ severity := .HIGH, category := "Data Freshness",
                  latestDate := some latest, ageDays := some (now - latest) }], []⟩
        else .ok ⟨t.setCol dateCol (parsed.map dateCell), [], [name ++ " freshness check"]⟩
  else .ok ⟨t, [], []⟩

def asNum : Cell → Option ℚ
  | Cell.num q => some q
  | _ => none

/-- `pd.api.types.is_numeric_dtype(df[col])`, at cell level: with tables
loaded from flat files a column's dtype is numeric exactly when every cell
is a number or a null. -/
def isNumericCol (col : List Cell) : Bool :=
  col.all (fun c => match c with | Cell.str _ => false | _ => true)

/-- The non-null values of a column (`quantile` drops nulls). -/
def numericVals (col : List Cell) : List ℚ := col.filterMap asNum

/-- `Series.quantile(q)` with the default linear interpolation:
`pos = q*(n-1)`, `i = floor(pos)`, result `s[i] + (pos-i)*(s[i+1]-s[i])`
over the sorted values; `none` (NaN) on an empty selection. -/
def quantileLinear (l : List ℚ) (q : ℚ) : Option ℚ :=
  if l.isEmpty then none
  else
    let s := l.insertionSort (· ≤ ·)
    let n := s.length
    let pos := q * ((n : ℚ) - 1)
    let i := (⌊pos⌋).toNat
    let frac := pos - (i : ℚ)
    let xi := s.getD i 0
    let xi1 := s.getD (min (i + 1) (n - 1)) 0
    some (xi + frac * (xi1 - xi))

/-- `((df[col] < lower_bound) | (df[col] > upper_bound)).sum()`: nulls
compare `False`; the dtype guard keeps strings out of this column. -/
def countOutside (col : List Cell) (lo hi : ℚ) : Nat :=
  col.countP (fun c =>
    match asNum c with
    | some x => decide (x < lo) || decide (hi < x)
    | none => false)

/-- Body of the outlier loop for one column (lines 122-140): skipped when
absent or non-numeric; NaN quantiles (empty selection) make every
comparison `False`, so the count is 0 and — `0/n = 0` and `0/0 = NaN` both
failing `> 5` — the column passes. -/
def outlierColResult (t : Table) (name col : String) : List Finding × List String :=
  if t.hasCol col && isNumericCol (t.getCol col) then
    match quantileLinear (numericVals (t.getCol col)) (1/4),
          quantileLinear (numericVals (t.getCol col)) (3/4) with
    | some q1, some q3 =>
      let iqr := q3 - q1
      let lo := q1 - 3/2 * iqr
      let hi := q3 + 3/2 * iqr
      let cnt := countOutside (t.getCol col) lo hi
      let pct := (cnt : ℚ) / (t.rows.length : ℚ) * 100
      if 5 < pct then
        ([{ severity := .LOW, category := "Outliers", column := some col,
            count := cnt, percentage := some pct }], [])
      else ([], [name ++ "." ++ col ++ " outlier check"])
    | _, _ => ([], [name ++ "." ++ col ++ " outlier check"])
  else ([], [])

/-- Ledger order of appends across the per-column results of one check. -/
def combineResults : List (List Finding × List String) → List Finding × List String
  | [] => ([], [])
  | p :: ps => (p.1 ++ (combineResults ps).1, p.2 ++ (combineResults ps).2)

/-- `check_outliers` (lines 118-140). -/
def check_outliers (t : Table) (name : String) (cols : List String) :
    Except String CheckResult :=
  .ok ⟨t, (combineResults (cols.map (outlierColResult t name))).1,
       (combineResults (cols.map (outlierColResult t name))).2⟩

/-! ### Projections of a rule's outcome -/

/-- `true` iff the rule invocation returned without raising. -/
def resOk : Except String CheckResult → Bool
  | .ok _ => true
  | .error _ => false

/-- The findings a rule appended (none when it raised). -/
def resFindings : Except String CheckResult → List Finding
  | .ok r => r.findings
  | .error _ => []

/-- The passed-check records a rule appended (none when it raised). -/
def resPasses : Except String CheckResult → List String
  | .ok r => r.passes
  | .error _ => []

/-! ### Table lemmas -/

lemma colIdx_isSome_of_mem {t : Table} {c : String} (h : c ∈ t.cols) :
    ∃ i, t.colIdx c = some i := by
  unfold Table.colIdx
  have hs : (t.cols.findIdx? (· == c)).isSome = true := by
    rw [List.findIdx?_isSome]
    exact List.any_eq_true.mpr ⟨c, h, by simp⟩
  exact Option.isSome_iff_exists.mp hs

lemma getCol_length_of_mem {t : Table} {c : String} (h : c ∈ t.cols) :
    (t.getCol c).length = t.rows.length := by
  obtain ⟨i, hi⟩ := colIdx_isSome_of_mem h
  unfold Table.getCol
  rw [hi]
  simp

/-! ### The missing-value check -/

lemma missing_values_eq_pass {t : Table} {name : String} (h : criticalMissing t = []) :
    check_missing_values t name = .ok ⟨t, [], ["No missing values in " ++ name]⟩ := by
  unfold check_missing_values
  simp [h]

lemma missing_values_eq_findings {t : Table} {name : String} (h : criticalMissing t ≠ []) :
    check_missing_values t name = .ok ⟨t, (criticalMissing t).map (missingFinding t), []⟩ := by
  unfold check_missing_values
  simp [List.isEmpty_iff, h]

lemma missingSeverity_iff (pct : ℚ) (hpos : 0 < pct) :
    (missingSeverity pct = Severity.HIGH ↔ 10 < pct) ∧
    (missingSeverity pct = Severity.MEDIUM ↔ 5 < pct ∧ pct ≤ 10) ∧
    (missingSeverity pct = Severity.LOW ↔ 0 < pct ∧ pct ≤ 5) := by
  unfold missingSeverity
  rcases lt_or_le 10 pct with h10 | h10
  · rw [if_pos h10]
    exact ⟨⟨fun _ => h10, fun _ => rfl⟩,
      ⟨fun h => Severity.noConfusion h, fun h => absurd h.2 (not_le.mpr h10)⟩,
      ⟨fun h => Severity.noConfusion h, fun h => absurd h.2 (by linarith)⟩⟩
  · rcases lt_or_le 5 pct with h5 | h5
    · rw [if_neg (not_lt.mpr h10), if_pos h5]
      exact ⟨⟨fun h => Severity.noConfusion h, fun h => absurd h (not_lt.mpr h10)⟩,
        ⟨fun _ => ⟨h5, h10⟩, fun _ => rfl⟩,
        ⟨fun h => Severity.noConfusion h, fun h => absurd h.2 (not_le.mpr h5)⟩⟩
    · rw [if_neg (not_lt.mpr h10), if_neg (not_lt.mpr h5)]
      exact ⟨⟨fun h => Severity.noConfusion h, fun h => absurd h (by linarith)⟩,
        ⟨fun h => Severity.noConfusion h, fun h => absurd h.1 (not_lt.mpr h5)⟩,
        ⟨fun _ => ⟨hpos, h5⟩, fun _ => rfl⟩⟩

/-- C1: for every table (column names distinct, as produced by the CSV
loader) and every column with at least one null, the missing-value check
emits exactly one Finding for that column, carrying the null count and
`pct = null_count / row_count * 100`, with severity HIGH iff `pct > 10`,
MEDIUM iff `5 < pct ≤ 10` and LOW iff `0 < pct ≤ 5`; if no column has
nulls it records exactly one pass for the whole table and zero
Findings. -/
theorem missing_values_severity_classification (t : Table) (name : String)
    (hnd : t.cols.Nodup) :
    ((∀ c ∈ t.cols, nullCount (t.getCol c) = 0) →
        resFindings (check_missing_values t name) = [] ∧
        resPasses (check_missing_values t name) = ["No missing values in " ++ name]) ∧
    (∀ c ∈ t.cols, 0 < nullCount (t.getCol c) →
        resPasses (check_missing_values t name) = [] ∧
        ((resFindings (check_missing_values t name)).filter
            (fun f => f.column == some c)).length = 1 ∧
        (∀ f ∈ resFindings (check_missing_values t name), f.column = some c →
          f.category = "Missing Data" ∧
          f.count = nullCount (t.getCol c) ∧
          f.percentage = some ((nullCount (t.getCol c) : ℚ) / (t.rows.length : ℚ) * 100) ∧
          (f.severity = Severity.HIGH ↔
              10 < (nullCount (t.getCol c) : ℚ) / (t.rows.length : ℚ) * 100) ∧
          (f.severity = Severity.MEDIUM ↔
              5 < (nullCount (t.getCol c) : ℚ) / (t.rows.length : ℚ) * 100 ∧
              (nullCount (t.getCol c) : ℚ) / (t.rows.length : ℚ) * 100 ≤ 10) ∧
          (f.severity = Severity.LOW ↔
              0 < (nullCount (t.getCol c) : ℚ) / (t.rows.length : ℚ) * 100 ∧
              (nullCount (t.getCol c) : ℚ) / (t.rows.length : ℚ) * 100 ≤ 5))) := by
  constructor
  · intro h0
    have hcrit : criticalMissing t = [] := by
      unfold criticalMissing
      rw [List.filter_eq_nil_iff]
      intro c hc
      simp [h0 c hc]
    rw [missing_values_eq_pass hcrit]
    exact ⟨rfl, rfl⟩
  · intro c hc hpos
    have hmem : c ∈ criticalMissing t := by
      unfold criticalMissing
      rw [List.mem_filter]
      exact ⟨hc, by simpa using hpos⟩
    have hne : criticalMissing t ≠ [] := List.ne_nil_of_mem hmem
    rw [missing_values_eq_findings hne]
    simp only [resFindings, resPasses]
    refine ⟨by trivial, ?_, ?_⟩
    · rw [← List.countP_eq_length_filter, List.countP_map]
      have hcong : List.countP ((fun f => f.column == some c) ∘ missingFinding t)
          (criticalMissing t) = List.countP (· == c) (criticalMissing t) :=
        List.countP_congr (by intro x _; simp [missingFinding])
      rw [hcong, ← List.count_eq_countP]
      unfold criticalMissing
      rw [List.count_filter (by simpa using hpos)]
      exact List.count_eq_one_of_mem hnd hc
    · intro f hf hcol
      obtain ⟨x, hx, rfl⟩ := List.mem_map.mp hf
      have hxc : x = c := by simpa [missingFinding] using hcol
      subst hxc
      have hxcols : x ∈ t.cols := (List.mem_filter.mp hx).1
      have hxpos : 0 < nullCount (t.getCol x) := by
        have hp := (List.mem_filter.mp hx).2
        simpa using hp
      have hn : (t.getCol x).length = t.rows.length := getCol_length_of_mem hxcols
      have hle : nullCount (t.getCol x) ≤ t.rows.length := by
        rw [← hn]
        unfold nullCount
        exact List.countP_le_length _
      have hrows : 0 < t.rows.length := lt_of_lt_of_le hxpos hle
      have hpct : 0 < (nullCount (t.getCol x) : ℚ) / (t.rows.length : ℚ) * 100 := by
        apply mul_pos
        · apply div_pos
          · exact_mod_cast hxpos
          · exact_mod_cast hrows
        · norm_num
      have hiffs := missingSeverity_iff
        ((nullCount (t.getCol x) : ℚ) / (t.rows.length : ℚ) * 100) hpct
      exact ⟨rfl, rfl, rfl, hiffs.1, hiffs.2.1, hiffs.2.2⟩

/-- C1 witness: a table with one column holding 1 null out of 2 rows. -/
theorem missing_values_severity_classification_witness :
    (["a"] : List String).Nodup ∧
    0 < nullCount ((⟨["a"], [[Cell.null], [Cell.num 1]]⟩ : Table).getCol "a") ∧
    ((resFindings (check_missing_values ⟨["a"], [[Cell.null], [Cell.num 1]]⟩ "t")).filter
        (fun f => f.column == some "a")).length = 1 := by
  refine ⟨by decide, by decide, ?_⟩
  exact ((missing_values_severity_classification ⟨["a"], [[Cell.null], [Cell.num 1]]⟩ "t"
    (by decide)).2 "a" (by decide) (by decide)).2.1

/-! ### Empty tables -/

lemma getCol_nil {t : Table} (h : t.rows = []) (c : String) : t.getCol c = [] := by
  unfold Table.getCol
  cases t.colIdx c <;> simp [h]

lemma criticalMissing_nil {t : Table} (h : t.rows = []) : criticalMissing t = [] := by
  unfold criticalMissing
  rw [List.filter_eq_nil_iff]
  intro c hc
  simp [getCol_nil h, nullCount]

lemma outlierColResult_nil {t : Table} (h : t.rows = []) (name col : String) :
    outlierColResult t name col =
      (if t.hasCol col then ([], [name ++ "." ++ col ++ " outlier check"]) else ([], [])) := by
  unfold outlierColResult
  rw [getCol_nil h]
  by_cases hc : t.hasCol col
  · simp [hc, isNumericCol, numericVals, quantileLinear]
  · simp [hc]

lemma combine_empty_outliers {t : Table} (h : t.rows = []) (name : String) (cols : List String) :
    (combineResults (cols.map (outlierColResult t name))).1 = [] ∧
    (combineResults (cols.map (outlierColResult t name))).2.length
      = (cols.filter (fun c => t.hasCol c)).length := by
  induction cols with
  | nil => exact ⟨rfl, rfl⟩
  | cons c cs ih =>
    simp only [List.map_cons, combineResults, List.filter_cons]
    rw [outlierColResult_nil h]
    by_cases hc : t.hasCol c
    · simpa [hc] using ih
    · simpa [hc] using ih

/-- C2 counterexample: on an empty table the missing-value check records a
pass for the table and the outlier check records a pass for the evaluated
column — the claim's "no Findings and also no passes" is false (the
division by zero is indeed not raised, but a pass is recorded). -/
theorem empty_table_records_passes_counterexample :
    check_missing_values ⟨["a"], []⟩ "occupancy_data" =
      .ok ⟨⟨["a"], []⟩, [], ["No missing values in occupancy_data"]⟩ ∧
    check_outliers ⟨["a"], []⟩ "occupancy_data" ["a"] =
      .ok ⟨⟨["a"], []⟩, [], ["occupancy_data.a outlier check"]⟩ ∧
    resPasses (check_missing_values ⟨["a"], []⟩ "occupancy_data") ≠ [] := by
  exact ⟨rfl, rfl, by decide⟩

/-- C2 (amended): on an empty table neither the missing-value check nor the
outlier check raises or emits a Finding, but passes are recorded: one pass
for the whole table from the missing-value check and one pass per present
column from the outlier check. -/
theorem empty_table_no_findings (t : Table) (name : String)
    (cols : List String) (h : t.rows = []) :
    check_missing_values t name = .ok ⟨t, [], ["No missing values in " ++ name]⟩ ∧
    resOk (check_outliers t name cols) = true ∧
    resFindings (check_outliers t name cols) = [] ∧
    (resPasses (check_outliers t name cols)).length
      = (cols.filter (fun c => t.hasCol c)).length := by
  have hco := combine_empty_outliers h name cols
  exact ⟨missing_values_eq_pass (criticalMissing_nil h), rfl, hco.1, hco.2⟩

/-- C2 witness: the amended statement applied to a concrete empty table. -/
theorem empty_table_no_findings_witness :
    (⟨["a"], []⟩ : Table).rows = [] ∧
    resFindings (check_outliers ⟨["a"], []⟩ "t" ["a"]) = [] ∧
    (resPasses (check_outliers ⟨["a"], []⟩ "t" ["a"])).length = 1 := by
  refine ⟨rfl, ?_, ?_⟩
  · exact (empty_table_no_findings ⟨["a"], []⟩ "t" ["a"] rfl).2.2.1
  · exact (empty_table_no_findings ⟨["a"], []⟩ "t" ["a"] rfl).2.2.2

/-! ### The range check -/

lemma countOutOfRange_eq {col : List Cell} (lo hi : ℚ) (h : isNumericCol col = true) :
    countOutOfRange col lo hi = .ok (countOutside col lo hi) := by
  induction col with
  | nil => rfl
  | cons c cs ih =>
    rw [isNumericCol, List.all_cons, Bool.and_eq_true] at h
    have ihh := ih h.2
    cases c with
    | null =>
      simp [countOutOfRange, cellOutOfRange, countOutside, asNum, List.countP_cons, ihh,
        Nat.add_comm]
    | num q =>
      simp [countOutOfRange, cellOutOfRange, countOutside, asNum, List.countP_cons, ihh,
        Nat.add_comm]
    | str s => simp at h

/-- The range rule for one named column as the specification words it
(second definition, following the spec's wording, to compare with the
translation of the source): an absent column contributes nothing; a
present one contributes one MEDIUM Finding carrying the strict
out-of-range count and the bounds when that count is positive, else one
pass. -/
def rangeSpecContribution (t : Table) (name col : String) (lo hi : ℚ) :
    List Finding × List String :=
  if t.hasCol col then
    if 0 < countOutside (t.getCol col) lo hi then
      ([{ severity := .MEDIUM, category := "Range Validation", column := some col,
          count := countOutside (t.getCol col) lo hi, bounds := some (lo, hi) }], [])
    else ([], [name ++ "." ++ col ++ " range check"])
  else ([], [])

lemma rangeColResult_eq_spec (t : Table) (name col : String) (lo hi : ℚ)
    (h : t.hasCol col = true → isNumericCol (t.getCol col) = true) :
    rangeColResult t name col lo hi = .ok (rangeSpecContribution t name col lo hi) := by
  unfold rangeColResult rangeSpecContribution
  by_cases hc : t.hasCol col
  · simp only [if_pos hc, countOutOfRange_eq lo hi (h hc)]
    by_cases h0 : 0 < countOutside (t.getCol col) lo hi
    · simp [h0]
    · simp [h0]
  · simp [hc]

lemma rangeResults_eq_spec (t : Table) (name : String) (rc : List (String × ℚ × ℚ))
    (h : ∀ p ∈ rc, t.hasCol p.1 = true → isNumericCol (t.getCol p.1) = true) :
    rangeResults t name rc =
      .ok (combineResults (rc.map (fun p => rangeSpecContribution t name p.1 p.2.1 p.2.2))) := by
  induction rc with
  | nil => rfl
  | cons p ps ih =>
    obtain ⟨col, lo, hi⟩ := p
    have h1 := h (col, lo, hi) (List.mem_cons_self _ _)
    have h2 : ∀ q ∈ ps, t.hasCol q.1 = true → isNumericCol (t.getCol q.1) = true :=
      fun q hq => h q (List.mem_cons_of_mem _ hq)
    simp only [rangeResults, List.map_cons, combineResults]
    rw [rangeColResult_eq_spec t name col lo hi h1, ih h2]

/-- C5: the range check counts exactly the rows with value strictly below
min or strictly above max (bound values are in-range), emits one MEDIUM
Finding with that count and the bounds per affected present column, one
pass per clean present column, and nothing for absent columns — stated as
a refinement of the spec-worded per-column contribution, for tables whose
range-checked columns hold numeric data. -/
theorem range_check_spec (t : Table) (name : String) (rc : List (String × ℚ × ℚ))
    (h : ∀ p ∈ rc, t.hasCol p.1 = true → isNumericCol (t.getCol p.1) = true) :
    check_data_ranges t name rc =
      .ok ⟨t, (combineResults (rc.map (fun p => rangeSpecContribution t name p.1 p.2.1 p.2.2))).1,
              (combineResults (rc.map (fun p => rangeSpecContribution t name p.1 p.2.1 p.2.2))).2⟩ := by
  unfold check_data_ranges
  rw [rangeResults_eq_spec t name rc h]

/-- C5 witness: a single value 101 against inclusive bounds [0, 100] is
flagged with count 1; a second column sitting exactly on a bound passes. -/
theorem range_check_spec_witness :
    check_data_ranges ⟨["v", "w"], [[Cell.num 101, Cell.num 100]]⟩ "t"
        [("v", 0, 100), ("w", 0, 100)] =
      .ok ⟨⟨["v", "w"], [[Cell.num 101, Cell.num 100]]⟩,
           [{ severity := .MEDIUM, category := "Range Validation", column := some "v",
              count := 1, bounds := some (0, 100) }],
           ["t.w range check"]⟩ := by
  have h := range_check_spec ⟨["v", "w"], [[Cell.num 101, Cell.num 100]]⟩ "t"
    [("v", 0, 100), ("w", 0, 100)] (by decide)
  exact h

/-! ### Findings + passes bookkeeping -/

lemma sum_ite_one {α : Type} (l : List α) (p : α → Bool) :
    (l.map (fun a => if p a then (1 : Nat) else 0)).sum = (l.filter p).length := by
  induction l with
  | nil => rfl
  | cons a l ih =>
    by_cases h : p a <;> simp [h, List.filter_cons, ih]
    omega

lemma combineResults_lengths (ps : List (List Finding × List String)) :
    (combineResults ps).1.length + (combineResults ps).2.length
      = (ps.map (fun p => p.1.length + p.2.length)).sum := by
  induction ps with
  | nil => rfl
  | cons p ps ih =>
    simp only [combineResults, List.map_cons, List.sum_cons, List.length_append]
    omega

lemma outlierColResult_lengths (t : Table) (name col : String) :
    (outlierColResult t name col).1.length + (outlierColResult t name col).2.length
      = if t.hasCol col && isNumericCol (t.getCol col) then 1 else 0 := by
  unfold outlierColResult
  by_cases hc : t.hasCol col && isNumericCol (t.getCol col)
  · simp only [if_pos hc]
    split
    · split <;> simp
    · simp
  · simp [hc]

lemma rangeSpecContribution_lengths (t : Table) (name col : String) (lo hi : ℚ) :
    (rangeSpecContribution t name col lo hi).1.length
        + (rangeSpecContribution t name col lo hi).2.length
      = if t.hasCol col then 1 else 0 := by
  unfold rangeSpecContribution
  by_cases hc : t.hasCol col
  · simp only [if_pos hc]
    by_cases h0 : 0 < countOutside (t.getCol col) lo hi <;> simp [h0]
  · simp [hc]

lemma missing_lengths (t : Table) (name : String) :
    (resFindings (check_missing_values t name)).length = (criticalMissing t).length ∧
    (resPasses (check_missing_values t name)).length
      = (if criticalMissing t = [] then 1 else 0) := by
  by_cases h : criticalMissing t = []
  · rw [missing_values_eq_pass h]
    simp [resFindings, resPasses, h]
  · rw [missing_values_eq_findings h]
    simp [resFindings, resPasses, h]

/-- C3 counterexample: on a two-column table with no nulls the
missing-value check appends 0 Findings and 1 pass; it examined both (2)
columns and found 0 affected, so under neither reading of "columns
evaluated" does Findings + passes match the column count. -/
theorem column_sum_counterexample :
    (resFindings (check_missing_values ⟨["a", "b"], [[Cell.num 1, Cell.num 2]]⟩ "t")).length
        + (resPasses (check_missing_values ⟨["a", "b"], [[Cell.num 1, Cell.num 2]]⟩ "t")).length
      = 1 ∧
    (⟨["a", "b"], [[Cell.num 1, Cell.num 2]]⟩ : Table).cols.length = 2 ∧
    criticalMissing ⟨["a", "b"], [[Cell.num 1, Cell.num 2]]⟩ = [] := by decide

/-- C3 (amended): the Findings + passes = evaluated-columns identity holds
for the range check (columns present in the table) and the outlier check
(columns present and numeric); the missing-value check instead emits one
Finding per null-containing column when any exists, and otherwise a single
table-level pass. -/
theorem column_level_sum (t : Table) (name : String) (rc : List (String × ℚ × ℚ))
    (cols : List String)
    (h : ∀ p ∈ rc, t.hasCol p.1 = true → isNumericCol (t.getCol p.1) = true) :
    (resFindings (check_missing_values t name)).length
        = (t.cols.filter (fun c => 0 < nullCount (t.getCol c))).length ∧
    (resPasses (check_missing_values t name)).length
        = (if (t.cols.filter (fun c => 0 < nullCount (t.getCol c))) = [] then 1 else 0) ∧
    (resFindings (check_data_ranges t name rc)).length
        + (resPasses (check_data_ranges t name rc)).length
        = (rc.filter (fun p => t.hasCol p.1)).length ∧
    (resFindings (check_outliers t name cols)).length
        + (resPasses (check_outliers t name cols)).length
        = (cols.filter (fun c => t.hasCol c && isNumericCol (t.getCol c))).length := by
  refine ⟨(missing_lengths t name).1, (missing_lengths t name).2, ?_, ?_⟩
  · unfold check_data_ranges
    rw [rangeResults_eq_spec t name rc h]
    simp only [resFindings, resPasses]
    rw [combineResults_lengths, List.map_map]
    have hmap : ((fun p : List Finding × List String => p.1.length + p.2.length) ∘
        (fun p : String × ℚ × ℚ => rangeSpecContribution t name p.1 p.2.1 p.2.2))
        = fun p : String × ℚ × ℚ => if t.hasCol p.1 then (1 : Nat) else 0 := by
      funext p
      exact rangeSpecContribution_lengths t name p.1 p.2.1 p.2.2
    rw [hmap, sum_ite_one]
  · show (resFindings (.ok ⟨t, _, _⟩)).length + (resPasses (.ok ⟨t, _, _⟩)).length = _
    simp only [resFindings, resPasses]
    rw [combineResults_lengths, List.map_map]
    have hmap : ((fun p : List Finding × List String => p.1.length + p.2.length) ∘
        (outlierColResult t name))
        = fun c : String => if t.hasCol c && isNumericCol (t.getCol c) then (1 : Nat) else 0 := by
      funext c
      exact outlierColResult_lengths t name c
    rw [hmap, sum_ite_one]

/-- C3 witness: the amended identity at a concrete table with one in-range
numeric column, one out-of-range entry and one null. -/
theorem column_level_sum_witness :
    (∀ p ∈ [("v", (0 : ℚ), (100 : ℚ))],
        Table.hasCol ⟨["v", "w"], [[Cell.num 101, Cell.null]]⟩ p.1 = true →
        isNumericCol (Table.getCol ⟨["v", "w"], [[Cell.num 101, Cell.null]]⟩ p.1) = true) ∧
    (resFindings (check_data_ranges ⟨["v", "w"], [[Cell.num 101, Cell.null]]⟩ "t"
          [("v", 0, 100)])).length
      + (resPasses (check_data_ranges ⟨["v", "w"], [[Cell.num 101, Cell.null]]⟩ "t"
          [("v", 0, 100)])).length = 1 := by
  refine ⟨by decide, ?_⟩
  exact (column_level_sum ⟨["v", "w"], [[Cell.num 101, Cell.null]]⟩ "t"
    [("v", 0, 100)] ["v"] (by decide)).2.2.1.trans (by decide)

/-! ### The duplicate check -/

lemma dupCount_eq_countP (seen l : List (List Cell)) :
    dupCount seen l = (List.range l.length).countP
      (fun i => decide (l.getD i [] ∈ seen ++ l.take i)) := by
  induction l generalizing seen with
  | nil => simp [dupCount]
  | cons r rs ih =>
    rw [dupCount, List.length_cons, List.range_succ_eq_map, List.countP_cons, List.countP_map]
    have hcong : List.countP
        ((fun i => decide ((r :: rs).getD i [] ∈ seen ++ (r :: rs).take i)) ∘ Nat.succ)
        (List.range rs.length)
        = List.countP (fun i => decide (rs.getD i [] ∈ (r :: seen) ++ rs.take i))
          (List.range rs.length) := by
      apply List.countP_congr
      intro i _
      simp only [Function.comp_apply, List.getD_cons_succ, List.take_succ_cons,
        decide_eq_true_eq, List.mem_append, List.mem_cons]
      tauto
    rw [hcong, ← ih (r :: seen)]
    have h0 : (if decide ((r :: rs).getD 0 [] ∈ seen ++ (r :: rs).take 0) = true
        then (1 : Nat) else 0) = (if r ∈ seen then 1 else 0) := by
      simp
    rw [h0]
    omega

lemma check_duplicates_pos {t : Table} {name : String} {subset : Option (List String)}
    {keys : List (List Cell)} (hk : dupKeys t subset = .ok keys)
    (hpos : 0 < dupCount [] keys) :
    check_duplicates t name subset =
      .ok ⟨t, [{ severity := .MEDIUM, category := "Duplicates", count := dupCount [] keys }], []⟩ := by
  unfold check_duplicates
  rw [hk]
  simp [hpos]

lemma check_duplicates_zero {t : Table} {name : String} {subset : Option (List String)}
    {keys : List (List Cell)} (hk : dupKeys t subset = .ok keys)
    (hz : dupCount [] keys = 0) :
    check_duplicates t name subset = .ok ⟨t, [], ["No duplicates in " ++ name]⟩ := by
  unfold check_duplicates
  rw [hk]
  simp [hz]

/-- The number of rows that repeat an earlier row, as the specification
words it (second definition, following the spec's wording): row `i` is
counted exactly when its comparison key already occurs among the keys of
rows `0..i-1`, so a first occurrence is never counted. -/
def specDupCount (keys : List (List Cell)) : Nat :=
  (List.range keys.length).countP (fun i => decide (keys.getD i [] ∈ keys.take i))

/-- C4: the duplicate check counts exactly the rows whose comparison key
(full row, or the projection onto the supplied subset) repeats that of an
earlier row, never the first occurrence; a positive count yields exactly
one MEDIUM Finding carrying it, a zero count exactly one pass. -/
theorem duplicates_count_spec (t : Table) (name : String) (subset : Option (List String))
    (keys : List (List Cell)) (hk : dupKeys t subset = .ok keys) :
    dupCount [] keys = specDupCount keys ∧
    (0 < specDupCount keys →
        resFindings (check_duplicates t name subset) =
          [{ severity := .MEDIUM, category := "Duplicates", count := specDupCount keys }] ∧
        resPasses (check_duplicates t name subset) = []) ∧
    (specDupCount keys = 0 →
        resFindings (check_duplicates t name subset) = [] ∧
        resPasses (check_duplicates t name subset) = ["No duplicates in " ++ name]) := by
  have hd : dupCount [] keys = specDupCount keys := by
    unfold specDupCount
    rw [dupCount_eq_countP]
    simp [List.nil_append]
  refine ⟨hd, ?_, ?_⟩
  · intro hpos
    rw [check_duplicates_pos hk (by omega)]
    constructor
    · simp [resFindings, hd]
    · rfl
  · intro hz
    rw [check_duplicates_zero hk (by omega)]
    exact ⟨rfl, rfl⟩

/-- C4 witness: the spec's key-subset example `[(1,A),(1,A),(2,B)]` on key
columns `(k, x)` has duplicate count 1 (the second occurrence only) and
yields the single MEDIUM Finding. -/
theorem duplicates_count_spec_witness :
    dupKeys ⟨["k", "x"], [[Cell.num 1, Cell.str "A"], [Cell.num 1, Cell.str "A"],
        [Cell.num 2, Cell.str "B"]]⟩ (some ["k", "x"])
      = .ok [[Cell.num 1, Cell.str "A"], [Cell.num 1, Cell.str "A"], [Cell.num 2, Cell.str "B"]] ∧
    specDupCount [[Cell.num 1, Cell.str "A"], [Cell.num 1, Cell.str "A"],
        [Cell.num 2, Cell.str "B"]] = 1 ∧
    resFindings (check_duplicates ⟨["k", "x"], [[Cell.num 1, Cell.str "A"],
        [Cell.num 1, Cell.str "A"], [Cell.num 2, Cell.str "B"]]⟩ "t" (some ["k", "x"]))
      = [{ severity := .MEDIUM, category := "Duplicates", count := 1 }] := by
  refine ⟨rfl, rfl, ?_⟩
  have h := duplicates_count_spec ⟨["k", "x"], [[Cell.num 1, Cell.str "A"],
      [Cell.num 1, Cell.str "A"], [Cell.num 2, Cell.str "B"]]⟩ "t" (some ["k", "x"])
    [[Cell.num 1, Cell.str "A"], [Cell.num 1, Cell.str "A"], [Cell.num 2, Cell.str "B"]] rfl
  exact (h.2.1 (by decide)).1

/-! ### The outlier check -/

/-- C6: for a present, numeric outlier-checked column, the check takes Q1
and Q3 from the linear-interpolation percentiles of the non-null values,
forms the whisker bounds `Q1 - 1.5*IQR` and `Q3 + 1.5*IQR`, counts the
rows strictly outside them, and emits one LOW Finding carrying that count
and `pct = count / row_count * 100` exactly when `pct > 5`; at `pct ≤ 5`
(in particular at exactly 5) it records one pass instead. -/
theorem outlier_check_spec (t : Table) (name col : String)
    (hp : t.hasCol col = true) (hn : isNumericCol (t.getCol col) = true)
    (q1 q3 : ℚ)
    (h1 : quantileLinear (numericVals (t.getCol col)) (1/4) = some q1)
    (h3 : quantileLinear (numericVals (t.getCol col)) (3/4) = some q3)
    (cnt : Nat)
    (hcnt : cnt = countOutside (t.getCol col) (q1 - 3/2 * (q3 - q1)) (q3 + 3/2 * (q3 - q1))) :
    (5 < (cnt : ℚ) / (t.rows.length : ℚ) * 100 →
        outlierColResult t name col =
          ([{ severity := .LOW, category := "Outliers", column := some col, count := cnt,
              percentage := some ((cnt : ℚ) / (t.rows.length : ℚ) * 100) }], [])) ∧
    ((cnt : ℚ) / (t.rows.length : ℚ) * 100 ≤ 5 →
        outlierColResult t name col = ([], [name ++ "." ++ col ++ " outlier check"])) ∧
    check_outliers t name [col] =
      .ok ⟨t, (outlierColResult t name col).1, (outlierColResult t name col).2⟩ := by
  refine ⟨?_, ?_, ?_⟩
  · intro hgt
    unfold outlierColResult
    simp only [hp, hn, Bool.and_self, if_true]
    rw [h1, h3]
    simp only [← hcnt, if_pos hgt]
  · intro hle
    unfold outlierColResult
    simp only [hp, hn, Bool.and_self, if_true]
    rw [h1, h3]
    simp only [← hcnt, if_neg (not_lt.mpr hle)]
  · simp [check_outliers, combineResults]


lemma quantileLinear_singleton (x q : ℚ) : quantileLinear [x] q = some x := by
  unfold quantileLinear
  simp [List.insertionSort]

/-- C6 witness: a singleton numeric column has Q1 = Q3 = its value, no row
outside the collapsed whisker bounds and outlier percentage 0 ≤ 5, so the
check records one pass. -/
theorem outlier_check_spec_witness :
    Table.hasCol ⟨["v"], [[Cell.num 10]]⟩ "v" = true ∧
    quantileLinear (numericVals (Table.getCol ⟨["v"], [[Cell.num 10]]⟩ "v")) (1/4) = some 10 ∧
    outlierColResult ⟨["v"], [[Cell.num 10]]⟩ "t" "v" = ([], ["t.v outlier check"]) := by
  have hcol : Table.getCol ⟨["v"], [[Cell.num 10]]⟩ "v" = [Cell.num 10] := by decide
  have hv : numericVals (Table.getCol ⟨["v"], [[Cell.num 10]]⟩ "v") = [10] := by decide
  have hq1 : quantileLinear (numericVals (Table.getCol ⟨["v"], [[Cell.num 10]]⟩ "v")) (1/4)
      = some 10 := by rw [hv]; exact quantileLinear_singleton 10 (1/4)
  have hq3 : quantileLinear (numericVals (Table.getCol ⟨["v"], [[Cell.num 10]]⟩ "v")) (3/4)
      = some 10 := by rw [hv]; exact quantileLinear_singleton 10 (3/4)
  have hcnt : (0 : Nat) = countOutside (Table.getCol ⟨["v"], [[Cell.num 10]]⟩ "v")
      (10 - 3/2 * (10 - 10)) (10 + 3/2 * (10 - 10)) := by
    rw [hcol]
    norm_num [countOutside, List.countP_cons, asNum]
  refine ⟨by decide, hq1, ?_⟩
  exact (outlier_check_spec ⟨["v"], [[Cell.num 10]]⟩ "t" "v" (by decide) (by decide)
    10 10 hq1 hq3 0 hcnt).2.1 (by norm_num)

/-! ### The freshness check -/

lemma check_freshness_isOk (t : Table) (name dateCol : String) (maxAgeDays now : Int) :
    resOk (check_data_freshness t name dateCol maxAgeDays now) = true := by
  unfold check_data_freshness
  by_cases hp : t.hasCol dateCol
  · rw [if_pos hp]
    split
    · rfl
    · split
      · rfl
      · split <;> rfl
  · rw [if_neg hp]; rfl

/-- C7: with the date column present, a failing coercion is caught and
recorded as exactly one MEDIUM "Date Parsing" Finding with no pass and no
raised error (so the run continues); a successful coercion yields one HIGH
Finding carrying the newest date and its age exactly when that age exceeds
`max_age_days`, and one pass otherwise (also when every date is null). -/
theorem freshness_parse_failure_spec (t : Table) (name dateCol : String)
    (maxAgeDays now : Int) (hp : t.hasCol dateCol = true) :
    resOk (check_data_freshness t name dateCol maxAgeDays now) = true ∧
    (∀ e, coerceDates (t.getCol dateCol) = .error e →
        resFindings (check_data_freshness t name dateCol maxAgeDays now) =
          [{ severity := .MEDIUM, category := "Date Parsing" }] ∧
        resPasses (check_data_freshness t name dateCol maxAgeDays now) = []) ∧
    (∀ parsed latest, coerceDates (t.getCol dateCol) = .ok parsed →
        listMaxO parsed = some latest →
        (maxAgeDays < now - latest →
            resFindings (check_data_freshness t name dateCol maxAgeDays now) =
              [{ severity := .HIGH, category := "Data Freshness",
                 latestDate := some latest, ageDays := some (now - latest) }] ∧
            resPasses (check_data_freshness t name dateCol maxAgeDays now) = []) ∧
        (now - latest ≤ maxAgeDays →
            resFindings (check_data_freshness t name dateCol maxAgeDays now) = [] ∧
            resPasses (check_data_freshness t name dateCol maxAgeDays now) =
              [name ++ " freshness check"])) ∧
    (∀ parsed, coerceDates (t.getCol dateCol) = .ok parsed → listMaxO parsed = none →
        resFindings (check_data_freshness t name dateCol maxAgeDays now) = [] ∧
        resPasses (check_data_freshness t name dateCol maxAgeDays now) =
          [name ++ " freshness check"]) := by
  refine ⟨check_freshness_isOk t name dateCol maxAgeDays now, ?_, ?_, ?_⟩
  · intro e he
    unfold check_data_freshness
    rw [if_pos hp]
    simp only [he]
    exact ⟨rfl, rfl⟩
  · intro parsed latest hco hm
    unfold check_data_freshness
    rw [if_pos hp]
    simp only [hco, hm]
    constructor
    · intro hage
      rw [if_pos hage]
      exact ⟨rfl, rfl⟩
    · intro hage
      rw [if_neg (not_lt.mpr hage)]
      exact ⟨rfl, rfl⟩
  · intro parsed hco hm
    unfold check_data_freshness
    rw [if_pos hp]
    simp only [hco, hm]
    exact ⟨rfl, rfl⟩

/-- C7 witness: a present date column with an unparseable entry yields the
MEDIUM "Date Parsing" Finding without raising. -/
theorem freshness_parse_failure_spec_witness :
    Table.hasCol ⟨["d"], [[Cell.str "not-a-date"]]⟩ "d" = true ∧
    coerceDates (Table.getCol ⟨["d"], [[Cell.str "not-a-date"]]⟩ "d")
      = .error "Error parsing date value not-a-date" ∧
    resFindings (check_data_freshness ⟨["d"], [[Cell.str "not-a-date"]]⟩ "t" "d" 7 100)
      = [{ severity := .MEDIUM, category := "Date Parsing" }] ∧
    resOk (check_data_freshness ⟨["d"], [[Cell.str "not-a-date"]]⟩ "t" "d" 7 100) = true := by
  have h := freshness_parse_failure_spec ⟨["d"], [[Cell.str "not-a-date"]]⟩ "t" "d" 7 100 rfl
  exact ⟨rfl, rfl, (h.2.1 "Error parsing date value not-a-date" rfl).1, h.1⟩

/-- C10: with the date column absent, the freshness check is a silent
skip: it appends no Finding (in particular no "Date Parsing" one), no
pass, raises nothing, and leaves the table as is. -/
theorem freshness_absent_column_skip (t : Table) (name dateCol : String)
    (maxAgeDays now : Int) (h : t.hasCol dateCol = false) :
    check_data_freshness t name dateCol maxAgeDays now = .ok ⟨t, [], []⟩ := by
  unfold check_data_freshness
  rw [if_neg (by simp [h])]

/-- C10 witness: freshness check on a table without the requested date
column. -/
theorem freshness_absent_column_skip_witness :
    Table.hasCol ⟨["x"], [[Cell.num 1]]⟩ "d" = false ∧
    check_data_freshness ⟨["x"], [[Cell.num 1]]⟩ "t" "d" 7 100
      = .ok ⟨⟨["x"], [[Cell.num 1]]⟩, [], []⟩ :=
  ⟨rfl, freshness_absent_column_skip ⟨["x"], [[Cell.num 1]]⟩ "t" "d" 7 100 rfl⟩

/-! ### Which rules can raise -/

lemma check_missing_isOk (t : Table) (name : String) :
    resOk (check_missing_values t name) = true := by
  by_cases h : criticalMissing t = []
  · rw [missing_values_eq_pass h]; rfl
  · rw [missing_values_eq_findings h]; rfl

lemma check_duplicates_isOk (t : Table) (name : String) (subset : Option (List String))
    (keys : List (List Cell)) (hk : dupKeys t subset = .ok keys) :
    resOk (check_duplicates t name subset) = true := by
  unfold check_duplicates
  simp only [hk]
  split <;> rfl

/-- C8 (amended): no rule raises on data content except the range check:
the missing-value, duplicate (with a well-formed key subset), freshness
(any content, including unparseable dates) and outlier checks always
return normally, and the range check returns normally provided every
present range-checked column holds numeric (string-free) content —
a string cell in a range-checked column raises a TypeError instead. -/
theorem rules_no_raise_except_ranges :
    (∀ t name, resOk (check_missing_values t name) = true) ∧
    (∀ t name, resOk (check_duplicates t name none) = true) ∧
    (∀ (t : Table) name s, s.all t.hasCol = true →
        resOk (check_duplicates t name (some s)) = true) ∧
    (∀ t name dc ma now, resOk (check_data_freshness t name dc ma now) = true) ∧
    (∀ t name cols, resOk (check_outliers t name cols) = true) ∧
    (∀ (t : Table) name rc,
        (∀ p ∈ rc, t.hasCol p.1 = true → isNumericCol (t.getCol p.1) = true) →
        resOk (check_data_ranges t name rc) = true) := by
  refine ⟨fun t name => check_missing_isOk t name,
    fun t name => check_duplicates_isOk t name none t.rows rfl, ?_,
    fun t name dc ma now => check_freshness_isOk t name dc ma now,
    fun t name cols => rfl, ?_⟩
  · intro t name s hs
    unfold check_duplicates dupKeys
    by_cases he : s.isEmpty
    · simp only [if_pos he]
      split <;> rfl
    · simp only [if_neg he, if_pos hs]
      split <;> rfl
  · intro t name rc h
    unfold check_data_ranges
    simp only [rangeResults_eq_spec t name rc h]
    rfl

/-- C8 counterexample: string content in a range-checked column makes the
range check raise (the pandas TypeError from `df[col] < min_val`, line 84,
which has no dtype guard), so "no rule function raises an exception
because of the data content" is false as stated. -/
theorem range_check_raises_counterexample :
    check_data_ranges ⟨["revenue"], [[Cell.str "N/A"]]⟩ "revenue_data"
        [("revenue", 0, 10000000)] = .error "TypeError: comparison of str and number" := rfl

/-- C8 witness: concrete invocations discharging the subset and
numeric-content hypotheses. -/
theorem rules_no_raise_except_ranges_witness :
    resOk (check_duplicates ⟨["k"], [[Cell.num 1]]⟩ "t" (some ["k"])) = true ∧
    resOk (check_data_ranges ⟨["v"], [[Cell.num 1]]⟩ "t" [("v", 0, 100)]) = true ∧
    resOk (check_data_freshness ⟨["d"], [[Cell.str "zz"]]⟩ "t" "d" 7 100) = true := by
  refine ⟨?_, ?_, ?_⟩
  · exact rules_no_raise_except_ranges.2.2.1 ⟨["k"], [[Cell.num 1]]⟩ "t" ["k"] (by decide)
  · exact rules_no_raise_except_ranges.2.2.2.2.2 ⟨["v"], [[Cell.num 1]]⟩ "t"
      [("v", 0, 100)] (by decide)
  · exact rules_no_raise_except_ranges.2.2.2.1 ⟨["d"], [[Cell.str "zz"]]⟩ "t" "d" 7 100

/-! ### Frame conditions -/

lemma mem_of_hasCol {t : Table} {c : String} (h : t.hasCol c = true) : c ∈ t.cols := by
  unfold Table.hasCol at h
  simpa using h

lemma coerceDates_length {col : List Cell} {ds : List (Option Int)}
    (h : coerceDates col = .ok ds) : ds.length = col.length := by
  induction col generalizing ds with
  | nil =>
    unfold coerceDates at h
    cases h
    rfl
  | cons c cs ih =>
    unfold coerceDates at h
    cases hp : parseDateCell c with
    | error e => rw [hp] at h; exact Except.noConfusion h
    | ok d =>
      rw [hp] at h
      cases hr : coerceDates cs with
      | error e => rw [hr] at h; exact Except.noConfusion h
      | ok ds2 =>
        rw [hr] at h
        cases h
        simp [ih hr]

lemma setCol_cols (t : Table) (c : String) (vals : List Cell) :
    (t.setCol c vals).cols = t.cols := by
  unfold Table.setCol
  split <;> rfl

lemma setCol_rows_length (t : Table) (c : String) (vals : List Cell)
    (hlen : vals.length = t.rows.length) :
    (t.setCol c vals).rows.length = t.rows.length := by
  unfold Table.setCol
  split
  · simp [hlen]
  · rfl

lemma getCol_setCol_ne (t : Table) (c c' : String) (vals : List Cell)
    (hlen : vals.length = t.rows.length) (hne : c' ≠ c) :
    (t.setCol c vals).getCol c' = t.getCol c' := by
  unfold Table.setCol
  cases hci : t.colIdx c with
  | none => rfl
  | some i =>
    have hci' : t.cols.findIdx? (· == c) = some i := hci
    unfold Table.getCol Table.colIdx
    simp only
    cases hcj : t.cols.findIdx? (· == c') with
    | none => rfl
    | some j =>
      obtain ⟨hiLen, hpi, _⟩ := List.findIdx?_eq_some_iff_getElem.mp hci'
      obtain ⟨hjLen, hpj, _⟩ := List.findIdx?_eq_some_iff_getElem.mp hcj
      have hij : i ≠ j := by
        intro hEq
        subst hEq
        rw [beq_iff_eq] at hpi hpj
        exact hne (hpj.symm.trans hpi)
      show ((t.rows.zip vals).map (fun rv => rv.1.set i rv.2)).map (fun r => r.getD j Cell.null)
          = t.rows.map (fun r => r.getD j Cell.null)
      rw [List.map_map]
      have hfun : ((fun r : List Cell => r.getD j Cell.null) ∘
          fun rv : List Cell × Cell => rv.1.set i rv.2)
          = fun rv : List Cell × Cell => rv.1.getD j Cell.null := by
        funext rv
        simp [List.getD_eq_getElem?_getD, List.getElem?_set_ne hij]
      rw [hfun]
      have hz : (t.rows.zip vals).map (fun rv : List Cell × Cell => rv.1.getD j Cell.null)
          = ((t.rows.zip vals).map Prod.fst).map (fun r => r.getD j Cell.null) := by
        rw [List.map_map]
        rfl
      rw [hz, List.map_fst_zip t.rows vals (le_of_eq hlen.symm)]

lemma getCol_of_not_hasCol {t : Table} {c : String} (h : ¬ t.hasCol c = true) :
    t.getCol c = [] := by
  have hmem : c ∉ t.cols := by
    intro hc
    exact h (by simpa [Table.hasCol] using hc)
  unfold Table.getCol Table.colIdx
  rw [List.findIdx?_eq_none_iff.mpr ?_]
  intro x hx
  rw [beq_eq_false_iff_ne]
  rintro rfl
  exact hmem hx

lemma getCol_setCol_self {t : Table} {c : String} (vals : List Cell)
    (hlen : vals.length = t.rows.length)
    (hwf : ∀ row ∈ t.rows, row.length = t.cols.length)
    (hc : t.hasCol c = true) :
    (t.setCol c vals).getCol c = vals := by
  obtain ⟨i, hi⟩ := colIdx_isSome_of_mem (mem_of_hasCol hc)
  have hi' : t.cols.findIdx? (· == c) = some i := hi
  have hiLen : i < t.cols.length := (List.findIdx?_eq_some_iff_getElem.mp hi').1
  unfold Table.setCol
  simp only [hi]
  unfold Table.getCol Table.colIdx
  simp only [hi']
  have hstep : ((t.rows.zip vals).map (fun rv => rv.1.set i rv.2)).map
      (fun r => r.getD i Cell.null) = (t.rows.zip vals).map Prod.snd := by
    rw [List.map_map]
    apply List.map_congr_left
    intro rv hrv
    have h1 : rv.1 ∈ t.rows := (List.of_mem_zip hrv).1
    have h2 : i < rv.1.length := by rw [hwf rv.1 h1]; exact hiLen
    simp [Function.comp, List.getD_eq_getElem?_getD, List.getElem?_set_self h2]
  rw [hstep, List.map_snd_zip t.rows vals (le_of_eq hlen)]

/-- C9: every rule hands back the table it was given unchanged, except the
freshness check, which may replace the designated date column by its
coerced form — and even then the column names, the row count and the
contents of every other column are preserved, and (for tables whose rows
match the header width) the date column holds exactly the coerced
values. -/
theorem rules_frame_condition (t : Table) (name dateCol : String)
    (subset : Option (List String)) (rc : List (String × ℚ × ℚ)) (cols : List String)
    (maxAgeDays now : Int) :
    (∀ r, check_missing_values t name = .ok r → r.table = t) ∧
    (∀ r, check_duplicates t name subset = .ok r → r.table = t) ∧
    (∀ r, check_data_ranges t name rc = .ok r → r.table = t) ∧
    (∀ r, check_outliers t name cols = .ok r → r.table = t) ∧
    (∀ r, check_data_freshness t name dateCol maxAgeDays now = .ok r →
        r.table.cols = t.cols ∧ r.table.rows.length = t.rows.length ∧
        (∀ c, c ≠ dateCol → r.table.getCol c = t.getCol c) ∧
        (∀ parsed, coerceDates (t.getCol dateCol) = .ok parsed →
            (∀ row ∈ t.rows, row.length = t.cols.length) →
            r.table.getCol dateCol = parsed.map dateCell)) := by
  refine ⟨?_, ?_, ?_, ?_, ?_⟩
  · intro r h
    by_cases hc : criticalMissing t = []
    · rw [missing_values_eq_pass hc] at h
      cases h
      rfl
    · rw [missing_values_eq_findings hc] at h
      cases h
      rfl
  · intro r h
    unfold check_duplicates at h
    cases hk : dupKeys t subset with
    | error e => rw [hk] at h; exact Except.noConfusion h
    | ok keys =>
      simp only [hk] at h
      by_cases hd : 0 < dupCount [] keys
      · rw [if_pos hd] at h
        cases h
        rfl
      · rw [if_neg hd] at h
        cases h
        rfl
  · intro r h
    unfold check_data_ranges at h
    cases hr : rangeResults t name rc with
    | error e => rw [hr] at h; exact Except.noConfusion h
    | ok p =>
      simp only [hr] at h
      cases h
      rfl
  · intro r h
    unfold check_outliers at h
    cases h
    rfl
  · intro r h
    unfold check_data_freshness at h
    by_cases hp : t.hasCol dateCol
    · rw [if_pos hp] at h
      cases hco : coerceDates (t.getCol dateCol) with
      | error e =>
        simp only [hco] at h
        cases h
        refine ⟨rfl, rfl, fun c hc => rfl, ?_⟩
        intro parsed hco2 hwf
        exact Except.noConfusion hco2
      | ok parsed =>
        simp only [hco] at h
        have hlen : (parsed.map dateCell).length = t.rows.length := by
          rw [List.length_map, coerceDates_length hco, getCol_length_of_mem (mem_of_hasCol hp)]
        have hdc : ∀ parsed2 : List (Option Int),
            (Except.ok parsed : Except String (List (Option Int))) = Except.ok parsed2 →
            (∀ row ∈ t.rows, row.length = t.cols.length) →
            (t.setCol dateCol (parsed.map dateCell)).getCol dateCol = parsed2.map dateCell := by
          intro parsed2 hco2 hwf
          cases hco2
          exact getCol_setCol_self _ hlen hwf hp
        cases hm : listMaxO parsed with
        | none =>
          simp only [hm] at h
          cases h
          exact ⟨setCol_cols t dateCol _, setCol_rows_length t dateCol _ hlen,
            fun c hc => getCol_setCol_ne t dateCol c _ hlen hc, hdc⟩
        | some latest =>
          simp only [hm] at h
          by_cases hage : maxAgeDays < now - latest
          · rw [if_pos hage] at h
            cases h
            exact ⟨setCol_cols t dateCol _, setCol_rows_length t dateCol _ hlen,
              fun c hc => getCol_setCol_ne t dateCol c _ hlen hc, hdc⟩
          · rw [if_neg hage] at h
            cases h
            exact ⟨setCol_cols t dateCol _, setCol_rows_length t dateCol _ hlen,
              fun c hc => getCol_setCol_ne t dateCol c _ hlen hc, hdc⟩
    · rw [if_neg hp] at h
      cases h
      refine ⟨rfl, rfl, fun c hc => rfl, ?_⟩
      intro parsed hco2 hwf
      have hnil : t.getCol dateCol = [] := getCol_of_not_hasCol hp
      rw [hnil] at hco2
      unfold coerceDates at hco2
      cases hco2
      exact hnil

/-- C9 witness: the freshness check coerces the date column in place while
the other column of the table is untouched. -/
theorem rules_frame_condition_witness :
    check_data_freshness ⟨["d", "x"], [[Cell.str "95", Cell.num 7]]⟩ "t" "d" 1000 100
      = .ok ⟨⟨["d", "x"], [[Cell.num 95, Cell.num 7]]⟩, [], ["t freshness check"]⟩ ∧
    Table.getCol ⟨["d", "x"], [[Cell.num 95, Cell.num 7]]⟩ "x"
      = Table.getCol ⟨["d", "x"], [[Cell.str "95", Cell.num 7]]⟩ "x" := by
  refine ⟨rfl, ?_⟩
  have h := (rules_frame_condition ⟨["d", "x"], [[Cell.str "95", Cell.num 7]]⟩ "t" "d"
      none [] [] 1000 100).2.2.2.2
      ⟨⟨["d", "x"], [[Cell.num 95, Cell.num 7]]⟩, [], ["t freshness check"]⟩ rfl
  exact h.2.2.1 "x" (by decide)
